import Mathlib

/-!
Verification of the layered-architecture dependency guard
(`scripts/makefile/arch_guard.py`) of the `hybrid_app_go` repository.

The Python tool is shallowly embedded below.  Source lines are given as
character lists (`List Char`); file contents are either a fully read list
of lines (`ReadResult.ok`) or a failed read that yielded a prefix of the
lines before the failure (`ReadResult.fail`), mirroring the `try`/`except`
around the line iteration in `_extract_imports`.  Printed warnings are
modelled as emitted `WarnEvent` values.
-/

namespace ArchGuard

/-- Python `str.strip` whitespace set (space, tab, newline, carriage return,
vertical tab, form feed). -/
def pyIsSpace (c : Char) : Bool :=
  c = ' ' || c = '\t' || c = '\n' || c = '\r' || c = '\x0b' || c = '\x0c'

/-- Python regex `\w` on its ASCII fragment: letters, digits, underscore. -/
def isWordChar (c : Char) : Bool :=
  c.isAlphanum || c = '_'

/-- Python `str.strip()`: remove leading and trailing whitespace. -/
def pyStrip (s : List Char) : List Char :=
  ((s.dropWhile pyIsSpace).reverse.dropWhile pyIsSpace).reverse

/-- `s.startswith(pat)` on character lists. -/
def startsWithChars (s pat : List Char) : Bool :=
  decide (s.take pat.length = pat)

/-- Python `str.split(sep)` for a one-character separator: never returns `[]`,
and `"".split(sep) == ['']`. -/
def splitOnChar (sep : Char) : List Char → List (List Char)
  | [] => [[]]
  | x :: xs =>
    if x = sep then [] :: splitOnChar sep xs
    else
      match splitOnChar sep xs with
      | [] => [[x]]
      | h :: t => (x :: h) :: t

/-- A single architecture rule violation (`ArchitectureViolation` dataclass). -/
structure ArchitectureViolation where
  file_path : String
  line_number : Nat
  violation_type : String
  details : String
deriving DecidableEq, Repr

/-- A warning printed to the operator. -/
inductive WarnEvent where
  | noGomod (layer : String)
  | gomodReadError (layer : String) (msg : String)
  | readFail (file_path : String) (msg : String)
deriving DecidableEq, Repr

/-- Outcome of looking for a layer's `go.mod`: the file is absent, it
exists but reading or decoding it raises (the `except` branch of
`_validate_gomod_config`), or it is read successfully. -/
inductive ManifestRead where
  | missing
  | readError (msg : String)
  | content (text : String)
deriving DecidableEq, Repr

/-- Outcome of reading one source file: all lines, or (on a read/decode
failure) the lines the iteration had already yielded before the exception. -/
inductive ReadResult where
  | ok (lines : List (List Char))
  | fail (preLines : List (List Char)) (msg : String)
deriving DecidableEq, Repr

/-- One Go source file of the scan set: path components relative to the
project root (the last component is the file name), plus its read outcome. -/
structure GoFile where
  parts : List String
  readRes : ReadResult
deriving DecidableEq, Repr

/-- `ArchitectureGuard.LAYER_RULES`: layer → allowed dependencies. -/
def LAYER_RULES : List (String × List String) :=
  [("domain", []),
   ("application", ["domain"]),
   ("infrastructure", ["application", "domain"]),
   ("presentation", ["application"]),
   ("bootstrap", ["domain", "application", "infrastructure", "presentation"])]

/-- `ArchitectureGuard.FORBIDDEN_TEST_IMPORTS` (only `"testing"` is ever
compared against, see `validate_no_test_imports`). -/
def FORBIDDEN_TEST_IMPORTS : List String :=
  ["testing", "testify", "assert", "require", "mock"]

/-- `ArchitectureGuard.FORBIDDEN_DEPENDENCY`. -/
def FORBIDDEN_DEPENDENCY : String := "bootstrap"

/-- `name in LAYER_RULES` (dict key membership). -/
def isKnownLayer (s : String) : Bool :=
  (LAYER_RULES.map Prod.fst).contains s

/-- `LAYER_RULES[layer]` lookup (empty for unknown keys, which the tool
never queries). -/
def allowedDeps (s : String) : List String :=
  (LAYER_RULES.lookup s).getD []

/-- The per-run state the guard carries: project root path, module path from
the root `go.mod`, and the set of layer directories detected as present. -/
structure Guard where
  project_root : String
  module_path : String
  layers_present : List String

/-- `_get_layer_from_import`: classify an import path into a layer. -/
def get_layer_from_import (module_path import_path : String) : Option String :=
  let m := module_path.toList
  let i := import_path.toList
  if startsWithChars i m then
    let relative := (i.drop m.length).dropWhile (fun c => c = '/')
    match splitOnChar '/' relative with
    | [] => none
    | p :: _ => if isKnownLayer (String.mk p) then some (String.mk p) else none
  else none

/-- `_get_file_layer`: first path component under the project root, if it is
a known layer. -/
def get_file_layer (parts : List String) : Option String :=
  match parts with
  | [] => none
  | p :: _ => if isKnownLayer p then some p else none

/-- The `'"' :: path ++ '"' :: trail` part of both import regexes:
`"([^"]+)"\s*$` — a nonempty double-quoted capture followed only by
whitespace. -/
def quotedTail : List Char → Option (List Char)
  | [] => none
  | c :: rest =>
    if c = '\"' then
      let path := rest.takeWhile (fun x => !(x == '\"'))
      match rest.dropWhile (fun x => !(x == '\"')) with
      | [] => none
      | c2 :: tail =>
        if c2 = '\"' then
          if path.isEmpty then none
          else if tail.all pyIsSpace then some path else none
        else none
    else none

/-- The shared suffix `(?:\w+\s+)?"([^"]+)"\s*$` of both import regexes:
an optional word-character alias, then a quoted path. -/
def matchAliasQuoted (s : List Char) : Option (List Char) :=
  match quotedTail s with
  | some p => some p
  | none =>
    let w := s.takeWhile isWordChar
    if w.isEmpty then none
    else
      let r1 := s.dropWhile isWordChar
      if (r1.takeWhile pyIsSpace).isEmpty then none
      else quotedTail (r1.dropWhile pyIsSpace)

/-- Regex `^\s*(?:\w+\s+)?"([^"]+)"\s*$` applied to a line inside an import
block. -/
def matchImportLine (s : List Char) : Option (List Char) :=
  matchAliasQuoted (s.dropWhile pyIsSpace)

/-- Regex `^\s*import\s+(?:\w+\s+)?"([^"]+)"\s*$` for a single-line import
declaration. -/
def matchSingleImport (s : List Char) : Option (List Char) :=
  let s1 := s.dropWhile pyIsSpace
  if s1.take 6 == ("import".toList) then
    let r := s1.drop 6
    if (r.takeWhile pyIsSpace).isEmpty then none
    else matchAliasQuoted (r.dropWhile pyIsSpace)
  else none

/-- The literal `'import ('` tested by `stripped.startswith('import (')`. -/
def importOpenChars : List Char := "import (".toList

/-- The line loop of `_extract_imports`: line numbers start at `n`,
`inBlock` is the `in_import_block` flag. -/
def extractLines : List (List Char) → Nat → Bool → List (Nat × String)
  | [], _, _ => []
  | line :: rest, n, inBlock =>
    let stripped := pyStrip line
    if startsWithChars stripped importOpenChars then
      extractLines rest (n + 1) true
    else if inBlock then
      if stripped = [')'] then extractLines rest (n + 1) false
      else
        match matchImportLine stripped with
        | some p => (n, String.mk p) :: extractLines rest (n + 1) true
        | none => extractLines rest (n + 1) true
    else
      match matchSingleImport stripped with
      | some p => (n, String.mk p) :: extractLines rest (n + 1) false
      | none => extractLines rest (n + 1) false

/-- `_extract_imports`: returns the import records and the warnings printed.
On a read failure the records accumulated from the already-read lines are
returned (the `except` clause falls through to `return imports`). -/
def extract_imports (file_path : String) : ReadResult → List (Nat × String) × List WarnEvent
  | .ok lines => (extractLines lines 1 false, [])
  | .fail preLines msg => (extractLines preLines 1 false, [.readFail file_path msg])

/-- `str(file_path)` for a scanned file (absolute path under the root). -/
def path_str (g : Guard) (f : GoFile) : String :=
  g.project_root ++ "/" ++ String.intercalate "/" f.parts

/-- The file name of a scanned file (its last path component). -/
def fileName (f : GoFile) : String :=
  (f.parts.getLast?).getD ""

/-- Detail text of a `TEST_CODE_IN_PRODUCTION` violation. -/
def testDetail (import_path : String) : String :=
  s!"Production code cannot import testing package: {import_path}"

/-- Detail text of a `FORBIDDEN_BOOTSTRAP_DEPENDENCY` violation. -/
def bootstrapDetail (current_layer import_path : String) : String :=
  s!"Layer \x27{current_layer}\x27 cannot depend on \x27{FORBIDDEN_DEPENDENCY}\x27 (import: {import_path})"

/-- Detail text of a presentation → infrastructure lateral violation. -/
def lateralPIDetail (import_path : String) : String :=
  s!"Presentation cannot depend on Infrastructure (import: {import_path})"

/-- Detail text of an infrastructure → presentation lateral violation. -/
def lateralIPDetail (import_path : String) : String :=
  s!"Infrastructure cannot depend on Presentation (import: {import_path})"

/-- Detail text of a `PRESENTATION_IMPORTS_DOMAIN` violation. -/
def presDomainDetail (import_path : String) : String :=
  s!"Presentation MUST NOT import Domain directly (import: {import_path})\n      → Use application/error re-exports instead (e.g., apperr.Result[T])"

/-- Detail text of an `ILLEGAL_LAYER_DEPENDENCY` violation. -/
def illegalDetail (current_layer dependency_layer import_path : String) : String :=
  s!"Layer \x27{current_layer}\x27 cannot depend on \x27{dependency_layer}\x27 (import: {import_path})"

/-- `_validate_no_test_imports`: skip `*_test.go` files, flag every import
whose path is exactly `testing`. -/
def validate_no_test_imports (g : Guard) (f : GoFile) : List ArchitectureViolation :=
  if (fileName f).endsWith ("_test.go") then []
  else
    (extract_imports (path_str g f) f.readRes).1.filterMap fun r =>
      if r.2 = "testing" then
        some ⟨path_str g f, r.1, "TEST_CODE_IN_PRODUCTION", testDetail r.2⟩
      else none

/-- The per-record rule cascade in the loop body of `validate_file`: skip
records whose target is external, not present, or the file's own layer; then
apply the first matching rule (bootstrap, lateral, presentation→domain,
generic table check). -/
def checkImport (g : Guard) (current_layer file_path : String)
    (line_num : Nat) (import_path : String) : Option ArchitectureViolation :=
  match get_layer_from_import g.module_path import_path with
    | none => none
    | some dependency_layer =>
      if g.layers_present.contains dependency_layer then
        if dependency_layer = current_layer then none
        else if dependency_layer = FORBIDDEN_DEPENDENCY then
          some ⟨file_path, line_num, "FORBIDDEN_BOOTSTRAP_DEPENDENCY",
            bootstrapDetail current_layer import_path⟩
        else if current_layer = "presentation" ∧ dependency_layer = "infrastructure" then
          some ⟨file_path, line_num, "FORBIDDEN_LATERAL_DEPENDENCY",
            lateralPIDetail import_path⟩
        else if current_layer = "infrastructure" ∧ dependency_layer = "presentation" then
          some ⟨file_path, line_num, "FORBIDDEN_LATERAL_DEPENDENCY",
            lateralIPDetail import_path⟩
        else if current_layer = "presentation" ∧ dependency_layer = "domain" then
          some ⟨file_path, line_num, "PRESENTATION_IMPORTS_DOMAIN",
            presDomainDetail import_path⟩
        else if (allowedDeps current_layer).contains dependency_layer then none
        else
          some ⟨file_path, line_num, "ILLEGAL_LAYER_DEPENDENCY",
            illegalDetail current_layer dependency_layer import_path⟩
      else none

/-- `validate_file`: the test-import check runs first and unconditionally;
the layer rules run only for files classified into a present layer. -/
def validate_file (g : Guard) (f : GoFile) : List ArchitectureViolation :=
  match get_file_layer f.parts with
  | none => validate_no_test_imports g f
  | some current_layer =>
    if g.layers_present.contains current_layer then
      validate_no_test_imports g f ++
        (extract_imports (path_str g f) f.readRes).1.filterMap
          (fun r => checkImport g current_layer (path_str g f) r.1 r.2)
    else validate_no_test_imports g f

/-- `re.finditer(r'require\s+([^\s]+)', content)`: every occurrence of the
literal `require` followed by whitespace captures the next whitespace-free
token; scanning resumes after the captured token. -/
def findRequires (s : List Char) : List String :=
  match s with
  | [] => []
  | c :: rest =>
    if (c :: rest).take 7 = ("require".toList) then
      let after := rest.drop 6
      if (after.takeWhile pyIsSpace).isEmpty then findRequires rest
      else
        let afterSp := after.dropWhile pyIsSpace
        let tok := afterSp.takeWhile (fun ch => !(pyIsSpace ch))
        if tok.isEmpty then findRequires rest
        else String.mk tok :: findRequires (afterSp.dropWhile (fun ch => !(pyIsSpace ch)))
    else findRequires rest
termination_by s.length
decreasing_by
  all_goals simp_wf
  have key : ∀ (q : Char → Bool) (xs : List Char),
      ((List.dropWhile pyIsSpace (List.drop 6 xs)).dropWhile q).length < xs.length + 1 := by
    intro q xs
    have h1 : ((List.dropWhile pyIsSpace (List.drop 6 xs)).dropWhile q).length ≤
        (List.dropWhile pyIsSpace (List.drop 6 xs)).length := (List.dropWhile_sublist _).length_le
    have h2 : (List.dropWhile pyIsSpace (List.drop 6 xs)).length ≤ (List.drop 6 xs).length :=
      (List.dropWhile_sublist _).length_le
    have h3 : (List.drop 6 xs).length = xs.length - 6 := List.length_drop 6 xs
    omega
  exact key _ _

/-- Python string `<`: lexicographic comparison by code point. -/
def pyStrLtChars : List Char → List Char → Bool
  | _, [] => false
  | [], _ :: _ => true
  | a :: as, b :: bs => if a < b then true else if a = b then pyStrLtChars as bs else false

/-- Python string `<=`, the order `sorted` uses ascending. -/
def pyStrLe (a b : String) : Bool := !(pyStrLtChars b.toList a.toList)

/-- Stable insertion of one element into an ascending list. -/
def insertSorted (le : α → α → Bool) (x : α) : List α → List α
  | [] => [x]
  | y :: ys => if le x y then x :: y :: ys else y :: insertSorted le x ys

/-- Python `sorted(...)`: a stable ascending sort (insertion sort; the keys
the tool sorts are pairwise distinct, so any stable sort is `sorted`). -/
def pySorted (le : α → α → Bool) (l : List α) : List α :=
  l.foldr (insertSorted le) []

/-- `sorted(self.layers_present)`. -/
def sortedLayers (g : Guard) : List String :=
  pySorted pyStrLe g.layers_present

/-- The layers a manifest declares: each `require` token classified by
`_get_layer_from_import`, keeping only known project layers.  A manifest
that is missing or unreadable contributes no declared identifiers (error
taxonomy: read errors degrade to "no information"). -/
def declaredLayers (gomods : String → ManifestRead) (module_path layer : String) :
    List String :=
  match gomods layer with
  | ManifestRead.content text =>
    (findRequires text.toList).filterMap (get_layer_from_import module_path)
  | _ => []

/-- The loop body of `_validate_gomod_config` for one layer: a missing
manifest only warns and skips the check; a manifest that exists but fails
to read or decode prints an error and sets `valid = False` (the `except`
branch, arch_guard.py lines 171-174); otherwise
`forbidden = declared − allowed` must be empty. -/
def gomodStep (g : Guard) (gomods : String → ManifestRead)
    (acc : Bool × List WarnEvent) (layer : String) : Bool × List WarnEvent :=
  match gomods layer with
  | ManifestRead.missing => (acc.1, acc.2 ++ [.noGomod layer])
  | ManifestRead.readError msg => (false, acc.2 ++ [.gomodReadError layer msg])
  | ManifestRead.content text =>
    let layer_deps := (findRequires text.toList).filterMap (get_layer_from_import g.module_path)
    let forbidden := layer_deps.filter (fun d => !((allowedDeps layer).contains d))
    (acc.1 && forbidden.isEmpty, acc.2)

/-- The verdict `_validate_gomod_config` reaches for one layer: a missing
manifest passes (its empty declared set satisfies any allowed set), an
unreadable manifest fails regardless of any forbidden set, and a readable
one passes iff `forbidden = declared − allowed` is empty. -/
def gomodLayerOK (g : Guard) (gomods : String → ManifestRead) (layer : String) : Bool :=
  match gomods layer with
  | ManifestRead.missing => true
  | ManifestRead.readError _ => false
  | ManifestRead.content _ =>
    ((declaredLayers gomods g.module_path layer).filter
      (fun d => !((allowedDeps layer).contains d))).isEmpty

/-- `_validate_gomod_config`: fold the per-layer check over the present
layers in sorted order, starting from `valid = True`. -/
def validate_gomod_config (g : Guard) (gomods : String → ManifestRead) :
    Bool × List WarnEvent :=
  (sortedLayers g).foldl (gomodStep g gomods) (true, [])

/-- The accumulated `self.violations` after scanning `files` in order. -/
def allViolations (g : Guard) (files : List GoFile) : List ArchitectureViolation :=
  files.foldl (fun acc f => acc ++ validate_file g f) []

/-- `validate_all`: trivially true with no layers; otherwise the manifest
check and the per-file scan, success iff both pass. -/
def validate_all (g : Guard) (gomods : String → ManifestRead) (files : List GoFile) :
    Bool × List ArchitectureViolation :=
  if g.layers_present.isEmpty then (true, [])
  else
    let cfg := (validate_gomod_config g gomods).1
    let viols := allViolations g files
    (cfg && viols.isEmpty, viols)

/-- `by_type.setdefault(v.violation_type, []).append(v)`: group a violation
into an insertion-ordered association list. -/
def addToGroups (gs : List (String × List ArchitectureViolation))
    (v : ArchitectureViolation) : List (String × List ArchitectureViolation) :=
  match gs with
  | [] => [(v.violation_type, [v])]
  | (k, vs) :: rest =>
    if k = v.violation_type then (k, vs ++ [v]) :: rest
    else (k, vs) :: addToGroups rest v

/-- The `by_type` dict of `report_violations`, in insertion order. -/
def by_type (vs : List ArchitectureViolation) : List (String × List ArchitectureViolation) :=
  vs.foldl addToGroups []

/-- `sorted(by_type.items())`: the violation groups as rendered, sorted by
violation kind; within a group the violations keep accumulation order. -/
def report_groups (vs : List ArchitectureViolation) :
    List (String × List ArchitectureViolation) :=
  pySorted (fun a b => pyStrLe a.1 b.1) (by_type vs)

/-- The tree `main` operates on: either the project root does not exist, or
it exists with detected layers, per-layer manifests, scanned Go files, and
the module path from the root `go.mod`. -/
inductive RootState where
  | missing
  | present (project_root : String) (layers : List String)
      (gomods : String → ManifestRead) (files : List GoFile) (module_path : String)

/-- `main`: exit 2 when the root is missing or no layers are present;
otherwise 0 iff `validate_all` succeeded, else 1. -/
def main : RootState → Nat
  | .missing => 2
  | .present project_root layers gomods files module_path =>
    let g : Guard := ⟨project_root, module_path, layers⟩
    if g.layers_present.isEmpty then 2
    else if (validate_all g gomods files).1 then 0 else 1

/-- Modelled from the spec: the line shape of one declaration inside a
block-form import — an optional local alias, then a double-quoted path. -/
def goBlockImportLine (al : Option (List Char)) (path : List Char) : List Char :=
  match al with
  | none => '\"' :: (path ++ ['\"'])
  | some a => a ++ (' ' :: '\"' :: (path ++ ['\"']))

/-- Modelled from the spec: a single-line import declaration — the keyword
`import`, an optional local alias, and a double-quoted path. -/
def goSingleImportDecl (al : Option (List Char)) (path : List Char) : List Char :=
  "import".toList ++ (' ' :: goBlockImportLine al path)

/-- Modelled from the spec: the aliases the underlying language grammar (Go)
permits in an import declaration — absent, a package identifier (word
characters stand in for identifiers), the blank identifier `_`, or the dot
`.` of a dot-import. -/
def goGrammarAliasOK : Option (List Char) → Bool
  | none => true
  | some a => a = ['.'] || a = ['_'] || (!a.isEmpty && a.all isWordChar)

/-- The aliases the extractor's regexes actually accept: absent, or a
nonempty word-character (`\w+`) identifier — the dot alias is not matched. -/
def aliasWordOK : Option (List Char) → Bool
  | none => true
  | some a => !a.isEmpty && a.all isWordChar

/-- Quoted paths both regexes accept: nonempty and quote-free (`[^"]+`). -/
def pathOK (path : List Char) : Bool :=
  !path.isEmpty && path.all (fun c => !(c == '\"'))

/-! ## Theorems -/

/-- C1 counterexample: a run whose project root exists but contains no layer
directories exits with code 2, not 0 — `main` returns 2 on
`not guard.layers_present` before `validate_all` is ever reached, so the
claimed trivial-success exit code 0 is wrong. -/
theorem c1_counterexample :
    main (RootState.present "/proj" [] (fun _ => ManifestRead.missing) []
        "github.com/abitofhelp/hybrid_app_go") = 2 ∧
    main (RootState.present "/proj" [] (fun _ => ManifestRead.missing) []
        "github.com/abitofhelp/hybrid_app_go") ≠ 0 := by
  exact ⟨rfl, by decide⟩

/-- C1 (amended): with no layers present the exit code is 2, not 0; when at
least one layer is present, the exit code is 1 iff at least one Violation was
recorded or the manifest configuration is invalid for some layer. -/
theorem c1_exit_codes (project_root : String) (layers : List String)
    (gomods : String → ManifestRead) (files : List GoFile) (module_path : String) :
    (layers = [] → main (.present project_root layers gomods files module_path) = 2) ∧
    (layers ≠ [] →
      (main (.present project_root layers gomods files module_path) = 1 ↔
        (validate_gomod_config ⟨project_root, module_path, layers⟩ gomods).1 = false ∨
        allViolations ⟨project_root, module_path, layers⟩ files ≠ [])) := by
  constructor
  · intro h; subst h; rfl
  · intro h
    have hne : layers.isEmpty = false := by
      cases layers with
      | nil => exact absurd rfl h
      | cons a l => rfl
    simp only [main, validate_all, hne, Bool.false_eq_true, if_false]
    cases hcfg : (validate_gomod_config ⟨project_root, module_path, layers⟩ gomods).1 <;>
      cases hv : allViolations ⟨project_root, module_path, layers⟩ files <;>
        simp [hcfg, hv]

/-- C1 witness for the amended statement: a concrete no-layer run exits 2,
and a concrete run with a present layer and one violation exits 1. -/
theorem c1_exit_codes_witness :
    main (.present "/proj" [] (fun _ => ManifestRead.missing) [] "example.com/app") = 2 ∧
    (main (.present "/proj" ["application", "domain"] (fun _ => ManifestRead.missing)
        [⟨["application", "uc.go"], .ok [("import \"testing\"".toList)]⟩]
        "example.com/app") = 1 ↔
      (validate_gomod_config ⟨"/proj", "example.com/app", ["application", "domain"]⟩
          (fun _ => ManifestRead.missing)).1 = false ∨
      allViolations ⟨"/proj", "example.com/app", ["application", "domain"]⟩
        [⟨["application", "uc.go"], .ok [("import \"testing\"".toList)]⟩] ≠ []) :=
  ⟨(c1_exit_codes "/proj" [] (fun _ => ManifestRead.missing) [] "example.com/app").1 rfl,
   (c1_exit_codes "/proj" ["application", "domain"] (fun _ => ManifestRead.missing)
      [⟨["application", "uc.go"], .ok [("import \"testing\"".toList)]⟩]
      "example.com/app").2 (by decide)⟩

/-- C2: a record of a presentation-layer file whose import classifies as
domain (domain being present) is flagged as `PRESENTATION_IMPORTS_DOMAIN`,
never as the generic `ILLEGAL_LAYER_DEPENDENCY` — the specific rule fires
before the generic table check in the cascade `checkImport`, which
`validate_file` applies to every record of a presentation file. -/
theorem c2_presentation_domain (g : Guard) (file_path import_path : String) (line_num : Nat)
    (hdep : get_layer_from_import g.module_path import_path = some ("domain"))
    (hpres : g.layers_present.contains ("domain") = true) :
    checkImport g "presentation" file_path line_num import_path =
      some ⟨file_path, line_num, "PRESENTATION_IMPORTS_DOMAIN",
        presDomainDetail import_path⟩ := by
  have hm : ("domain" : String) ∈ g.layers_present := by simpa using hpres
  unfold checkImport
  rw [hdep]
  simp [hm, FORBIDDEN_DEPENDENCY]

/-- C2 witness: Scenario B — `presentation/handler.go` importing
`example.com/app/domain/entity`. -/
theorem c2_presentation_domain_witness :
    checkImport ⟨"/proj", "example.com/app", ["presentation", "domain"]⟩ "presentation"
      "/proj/presentation/handler.go" 3 "example.com/app/domain/entity" =
      some ⟨"/proj/presentation/handler.go", 3, "PRESENTATION_IMPORTS_DOMAIN",
        presDomainDetail "example.com/app/domain/entity"⟩ :=
  c2_presentation_domain ⟨"/proj", "example.com/app", ["presentation", "domain"]⟩
    "/proj/presentation/handler.go" "example.com/app/domain/entity" 3 (by decide) (by decide)

/-- C3: for a file of any layer other than bootstrap, a record whose import
classifies as bootstrap (bootstrap being present) yields exactly the
`FORBIDDEN_BOOTSTRAP_DEPENDENCY` violation, regardless of the allowed-
dependency table; `validate_file` maps the cascade over the records with
`filterMap`, so scanning continues with the next record. -/
theorem c3_bootstrap_dependency (g : Guard) (current_layer file_path import_path : String)
    (line_num : Nat)
    (hcur : current_layer ≠ "bootstrap")
    (hdep : get_layer_from_import g.module_path import_path = some ("bootstrap"))
    (hb : g.layers_present.contains ("bootstrap") = true) :
    checkImport g current_layer file_path line_num import_path =
      some ⟨file_path, line_num, "FORBIDDEN_BOOTSTRAP_DEPENDENCY",
        bootstrapDetail current_layer import_path⟩ := by
  have hm : ("bootstrap" : String) ∈ g.layers_present := by simpa using hb
  unfold checkImport
  rw [hdep]
  simp [hm, FORBIDDEN_DEPENDENCY, Ne.symm hcur]

/-- C3 witness: Scenario C — `infrastructure/db.go` importing
`example.com/app/bootstrap/wire`. -/
theorem c3_bootstrap_dependency_witness :
    checkImport ⟨"/proj", "example.com/app", ["infrastructure", "bootstrap"]⟩ "infrastructure"
      "/proj/infrastructure/db.go" 7 "example.com/app/bootstrap/wire" =
      some ⟨"/proj/infrastructure/db.go", 7, "FORBIDDEN_BOOTSTRAP_DEPENDENCY",
        bootstrapDetail "infrastructure" "example.com/app/bootstrap/wire"⟩ :=
  c3_bootstrap_dependency ⟨"/proj", "example.com/app", ["infrastructure", "bootstrap"]⟩
    "infrastructure" "/proj/infrastructure/db.go" "example.com/app/bootstrap/wire" 7
    (by decide) (by decide) (by decide)

/-- C4: the allowed-dependency table is exactly as specified (domain's set
empty, bootstrap's all four other layers), and a record whose import
classifies to the file's own layer is never flagged by the rule cascade. -/
theorem c4_layer_table_and_intra_layer :
    allowedDeps "domain" = [] ∧
    allowedDeps "application" = ["domain"] ∧
    allowedDeps "infrastructure" = ["application", "domain"] ∧
    allowedDeps "presentation" = ["application"] ∧
    allowedDeps "bootstrap" = ["domain", "application", "infrastructure", "presentation"] ∧
    ∀ (g : Guard) (current_layer file_path import_path : String) (line_num : Nat),
      get_layer_from_import g.module_path import_path = some current_layer →
      checkImport g current_layer file_path line_num import_path = none := by
  refine ⟨rfl, rfl, rfl, rfl, rfl, ?_⟩
  intro g current_layer file_path import_path line_num hdep
  unfold checkImport
  rw [hdep]
  by_cases h : g.layers_present.contains current_layer <;> simp [h]

/-- C4 witness: an intra-layer import inside domain is not flagged. -/
theorem c4_layer_table_witness :
    checkImport ⟨"/proj", "example.com/app", ["domain"]⟩ "domain" "/proj/domain/a.go"
      1 "example.com/app/domain/b" = none :=
  c4_layer_table_and_intra_layer.2.2.2.2.2 ⟨"/proj", "example.com/app", ["domain"]⟩
    "domain" "/proj/domain/a.go" "example.com/app/domain/b" 1 (by decide)

/-- The rule cascade never produces a `TEST_CODE_IN_PRODUCTION` violation:
that kind comes only from the test-import check. -/
theorem checkImport_type_ne_test (g : Guard) (cur fp : String) (ln : Nat) (ip : String)
    (v : ArchitectureViolation) (h : checkImport g cur fp ln ip = some v) :
    v.violation_type ≠ "TEST_CODE_IN_PRODUCTION" := by
  unfold checkImport at h
  split at h
  · exact Option.noConfusion h
  · split_ifs at h <;>
      first
        | exact Option.noConfusion h
        | (injection h with h2; subst h2; simp)

/-- Counting `TEST_CODE_IN_PRODUCTION` violations among the layer-rule
results of any record list gives zero. -/
theorem countP_test_of_checkImport (g : Guard) (cur fp : String) (l : List (Nat × String)) :
    (l.filterMap (fun r => checkImport g cur fp r.1 r.2)).countP
      (fun v => v.violation_type == "TEST_CODE_IN_PRODUCTION") = 0 := by
  rw [List.countP_eq_zero]
  intro v hv
  rw [List.mem_filterMap] at hv
  obtain ⟨r, _, hr⟩ := hv
  simpa using checkImport_type_ne_test g cur fp r.1 r.2 v hr

/-- Each record with path exactly `testing` contributes exactly one
`TEST_CODE_IN_PRODUCTION` violation to the test-import check. -/
theorem countP_test_filterMap (fp : String) (l : List (Nat × String)) :
    (l.filterMap (fun r =>
        if r.2 = "testing" then
          some (⟨fp, r.1, "TEST_CODE_IN_PRODUCTION", testDetail r.2⟩ : ArchitectureViolation)
        else none)).countP (fun v => v.violation_type == "TEST_CODE_IN_PRODUCTION") =
      l.countP (fun r => r.2 == "testing") := by
  induction l with
  | nil => rfl
  | cons r rest ih =>
    by_cases h : r.2 = "testing" <;>
      simp [List.filterMap_cons, List.countP_cons, h, ih]

/-- The test-import check contributes `TEST_CODE_IN_PRODUCTION` violations
exactly per non-test-file `testing` record. -/
theorem countP_no_test_imports (g : Guard) (f : GoFile) :
    (validate_no_test_imports g f).countP
        (fun v => v.violation_type == "TEST_CODE_IN_PRODUCTION") =
      if (fileName f).endsWith ("_test.go") then 0
      else (extract_imports (path_str g f) f.readRes).1.countP (fun r => r.2 == "testing") := by
  unfold validate_no_test_imports
  split
  · simp
  · exact countP_test_filterMap (path_str g f) _

/-- C7: for every scanned file, each `testing` import of a non-test file
(name not ending in `_test.go`) yields exactly one `TEST_CODE_IN_PRODUCTION`
violation and a test file yields zero, independently of the file's layer
membership (the statement quantifies over all files, classified or not). -/
theorem c7_test_code_in_production (g : Guard) (f : GoFile) :
    (validate_file g f).countP (fun v => v.violation_type == "TEST_CODE_IN_PRODUCTION") =
      if (fileName f).endsWith ("_test.go") then 0
      else (extract_imports (path_str g f) f.readRes).1.countP (fun r => r.2 == "testing") := by
  unfold validate_file
  cases hl : get_file_layer f.parts with
  | none => exact countP_no_test_imports g f
  | some current_layer =>
    cases hc : g.layers_present.contains current_layer
    · simp only [hc, Bool.false_eq_true, if_false]
      exact countP_no_test_imports g f
    · simp only [hc, if_true, List.countP_append]
      rw [countP_test_of_checkImport, countP_no_test_imports, Nat.add_zero]

/-- C10: only an import whose path is exactly the string `testing` can
trigger a `TEST_CODE_IN_PRODUCTION` violation — a file none of whose import
records is exactly `testing` gets no such violation, whatever its name or
layer. -/
theorem c10_only_exact_testing (g : Guard) (f : GoFile)
    (h : ∀ r ∈ (extract_imports (path_str g f) f.readRes).1, r.2 ≠ "testing") :
    validate_no_test_imports g f = [] := by
  unfold validate_no_test_imports
  split
  · rfl
  · rw [List.filterMap_eq_nil_iff]
    intro r hr
    simp [h r hr]

set_option maxHeartbeats 1600000 in
/-- C10 witness: a production file importing every entry of
`FORBIDDEN_TEST_IMPORTS` other than `testing`, plus the subpackage
`testing/quick`, yields zero `TEST_CODE_IN_PRODUCTION` violations. -/
theorem c10_only_exact_testing_witness :
    validate_no_test_imports ⟨"/proj", "example.com/app", ["application"]⟩
      ⟨["application", "uc.go"],
        .ok [("import \"testify\"".toList), ("import \"assert\"".toList),
             ("import \"require\"".toList), ("import \"mock\"".toList),
             ("import \"testing/quick\"".toList)]⟩ = [] :=
  c10_only_exact_testing ⟨"/proj", "example.com/app", ["application"]⟩
    ⟨["application", "uc.go"],
      .ok [("import \"testify\"".toList), ("import \"assert\"".toList),
           ("import \"require\"".toList), ("import \"mock\"".toList),
           ("import \"testing/quick\"".toList)]⟩ (by decide)

/-- Unfolding of the `_validate_gomod_config` fold: validity is the
conjunction of the per-layer verdicts (`gomodLayerOK`), and the printed
events are one `noGomod` per missing manifest and one `gomodReadError` per
unreadable manifest, in layer order. -/
theorem gomod_foldl_spec (g : Guard) (gomods : String → ManifestRead)
    (ls : List String) (b : Bool) (w : List WarnEvent) :
    (ls.foldl (gomodStep g gomods) (b, w)).1 = (b && ls.all (gomodLayerOK g gomods)) ∧
    (ls.foldl (gomodStep g gomods) (b, w)).2 =
      w ++ ls.filterMap (fun layer =>
        match gomods layer with
        | ManifestRead.missing => some (WarnEvent.noGomod layer)
        | ManifestRead.readError msg => some (WarnEvent.gomodReadError layer msg)
        | ManifestRead.content _ => none) := by
  induction ls generalizing b w with
  | nil => simp
  | cons layer rest ih =>
    cases hg : gomods layer with
    | missing =>
      simp only [List.foldl_cons, gomodStep, hg]
      constructor
      · rw [(ih b (w ++ [WarnEvent.noGomod layer])).1]
        simp [gomodLayerOK, hg]
      · rw [(ih b (w ++ [WarnEvent.noGomod layer])).2]
        simp [hg]
    | readError msg =>
      simp only [List.foldl_cons, gomodStep, hg]
      constructor
      · rw [(ih false (w ++ [WarnEvent.gomodReadError layer msg])).1]
        simp [gomodLayerOK, hg]
      · rw [(ih false (w ++ [WarnEvent.gomodReadError layer msg])).2]
        simp [hg]
    | content text =>
      simp only [List.foldl_cons, gomodStep, hg]
      constructor
      · rw [(ih _ w).1]
        simp [gomodLayerOK, declaredLayers, hg, Bool.and_assoc]
      · rw [(ih _ w).2]
        simp [hg]

/-- C8 counterexample: a present layer whose `go.mod` exists but cannot be
read or decoded (the `except` branch, arch_guard.py lines 171-174, e.g. a
non-UTF-8 file) makes the manifest configuration invalid even though every
per-layer forbidden set `declared − allowed` is empty (an unreadable
manifest yields no declared identifiers) — so overall validity is NOT the
conjunction of the forbidden-emptiness checks, refuting the final clause of the
claim. -/
theorem c8_counterexample :
    (validate_gomod_config ⟨"/proj", "example.com/app", ["application", "domain"]⟩
        (fun l => if l = "domain" then ManifestRead.readError ("invalid utf-8")
                  else ManifestRead.missing)).1 = false ∧
    (sortedLayers ⟨"/proj", "example.com/app", ["application", "domain"]⟩).all
      (fun layer =>
        ((declaredLayers
            (fun l => if l = "domain" then ManifestRead.readError ("invalid utf-8")
                      else ManifestRead.missing) "example.com/app" layer).filter
          (fun d => !((allowedDeps layer).contains d))).isEmpty) = true :=
  ⟨by decide, by decide⟩

/-- C8 (amended): a present layer with no manifest only warns (`noGomod`),
counts as zero declared internal dependencies, and can never by itself make
the configuration invalid (its per-layer verdict is `true`); overall
manifest validity is the conjunction of the per-layer verdicts, where a
missing manifest passes, a manifest that exists but cannot be read or
decoded fails regardless of any forbidden set, and a readable manifest
passes iff `forbidden = declared − allowed` is empty. -/
theorem c8_manifest_validity (g : Guard) (gomods : String → ManifestRead) :
    (validate_gomod_config g gomods).1 = (sortedLayers g).all (gomodLayerOK g gomods) ∧
    ∀ layer ∈ sortedLayers g, gomods layer = ManifestRead.missing →
      declaredLayers gomods g.module_path layer = [] ∧
      gomodLayerOK g gomods layer = true ∧
      WarnEvent.noGomod layer ∈ (validate_gomod_config g gomods).2 := by
  have h := gomod_foldl_spec g gomods (sortedLayers g) true []
  constructor
  · simpa [validate_gomod_config] using h.1
  · intro layer hmem hnone
    refine ⟨by simp [declaredLayers, hnone], by simp [gomodLayerOK, hnone], ?_⟩
    have h2 : (validate_gomod_config g gomods).2 =
        (sortedLayers g).filterMap (fun layer =>
          match gomods layer with
          | ManifestRead.missing => some (WarnEvent.noGomod layer)
          | ManifestRead.readError msg => some (WarnEvent.gomodReadError layer msg)
          | ManifestRead.content _ => none) := by
      simpa [validate_gomod_config] using h.2
    rw [h2, List.mem_filterMap]
    exact ⟨layer, hmem, by simp [hnone]⟩

/-- C8 witness: `application` has a readable manifest declaring only domain
(its verdict holds), `domain` is present with no manifest — zero declared
dependencies, verdict `true`, and exactly a `noGomod` warning. -/
theorem c8_manifest_validity_witness :
    ((validate_gomod_config ⟨"/proj", "example.com/app", ["application", "domain"]⟩
        (fun l => if l = "application"
                  then ManifestRead.content ("require example.com/app/domain v0.0.0\n")
                  else ManifestRead.missing)).1 =
      (sortedLayers ⟨"/proj", "example.com/app", ["application", "domain"]⟩).all
        (gomodLayerOK ⟨"/proj", "example.com/app", ["application", "domain"]⟩
          (fun l => if l = "application"
                    then ManifestRead.content ("require example.com/app/domain v0.0.0\n")
                    else ManifestRead.missing))) ∧
    (declaredLayers
        (fun l => if l = "application"
                  then ManifestRead.content ("require example.com/app/domain v0.0.0\n")
                  else ManifestRead.missing) "example.com/app" "domain" = [] ∧
      gomodLayerOK ⟨"/proj", "example.com/app", ["application", "domain"]⟩
        (fun l => if l = "application"
                  then ManifestRead.content ("require example.com/app/domain v0.0.0\n")
                  else ManifestRead.missing) "domain" = true ∧
      WarnEvent.noGomod "domain" ∈
        (validate_gomod_config ⟨"/proj", "example.com/app", ["application", "domain"]⟩
          (fun l => if l = "application"
                    then ManifestRead.content ("require example.com/app/domain v0.0.0\n")
                    else ManifestRead.missing)).2) :=
  ⟨(c8_manifest_validity ⟨"/proj", "example.com/app", ["application", "domain"]⟩
      (fun l => if l = "application"
                then ManifestRead.content ("require example.com/app/domain v0.0.0\n")
                else ManifestRead.missing)).1,
   (c8_manifest_validity ⟨"/proj", "example.com/app", ["application", "domain"]⟩
      (fun l => if l = "application"
                then ManifestRead.content ("require example.com/app/domain v0.0.0\n")
                else ManifestRead.missing)).2 "domain" (by decide) (by decide)⟩

/-- The accumulated violation list is the concatenation of each file's
violations in scan order. -/
theorem allViolations_eq_flatten (g : Guard) (files : List GoFile) :
    allViolations g files = (files.map (validate_file g)).flatten := by
  suffices key : ∀ (fs : List GoFile) (acc : List ArchitectureViolation),
      fs.foldl (fun acc f => acc ++ validate_file g f) acc =
        acc ++ (fs.map (validate_file g)).flatten by
    simpa [allViolations] using key files []
  intro fs
  induction fs with
  | nil => intro acc; simp
  | cons f rest ih => intro acc; simp [ih, List.append_assoc]

/-- C5 (amended): scan order never changes the multiset of recorded
violations — permuting the scan set permutes the accumulated violation
list. The rendered report groups them by kind and sorts the groups by kind,
but within a group the accumulation order is kept (see the counterexample),
so only the multiset, not the rendered text, is order-independent. -/
theorem c5_scan_order_multiset (g : Guard) (files1 files2 : List GoFile)
    (h : files1.Perm files2) :
    (allViolations g files1).Perm (allViolations g files2) := by
  rw [allViolations_eq_flatten, allViolations_eq_flatten]
  exact (h.map (validate_file g)).flatten

/-- C5 witness: two presentation files each with one violation, scanned in
the two orders. -/
theorem c5_scan_order_multiset_witness :
    (allViolations ⟨"/proj", "example.com/app", ["presentation", "domain"]⟩
      [⟨["presentation", "a.go"], .ok [("import \"example.com/app/domain/x\"".toList)]⟩,
       ⟨["presentation", "b.go"], .ok [("import \"example.com/app/domain/x\"".toList)]⟩]).Perm
    (allViolations ⟨"/proj", "example.com/app", ["presentation", "domain"]⟩
      [⟨["presentation", "b.go"], .ok [("import \"example.com/app/domain/x\"".toList)]⟩,
       ⟨["presentation", "a.go"], .ok [("import \"example.com/app/domain/x\"".toList)]⟩]) :=
  c5_scan_order_multiset ⟨"/proj", "example.com/app", ["presentation", "domain"]⟩
    [⟨["presentation", "a.go"], .ok [("import \"example.com/app/domain/x\"".toList)]⟩,
     ⟨["presentation", "b.go"], .ok [("import \"example.com/app/domain/x\"".toList)]⟩]
    [⟨["presentation", "b.go"], .ok [("import \"example.com/app/domain/x\"".toList)]⟩,
     ⟨["presentation", "a.go"], .ok [("import \"example.com/app/domain/x\"".toList)]⟩]
    (by decide)

/-- C5 counterexample: the rendered report is NOT identical across scan
orders — the report sorts the violation groups by kind but keeps the
accumulation order inside each group (it never sorts by file path), so two
runs over the same tree scanned in different orders render the two
violations of the same kind in different orders. -/
theorem c5_counterexample :
    report_groups (allViolations ⟨"/proj", "example.com/app", ["presentation", "domain"]⟩
      [⟨["presentation", "a.go"], .ok [("import \"example.com/app/domain/x\"".toList)]⟩,
       ⟨["presentation", "b.go"], .ok [("import \"example.com/app/domain/x\"".toList)]⟩]) ≠
    report_groups (allViolations ⟨"/proj", "example.com/app", ["presentation", "domain"]⟩
      [⟨["presentation", "b.go"], .ok [("import \"example.com/app/domain/x\"".toList)]⟩,
       ⟨["presentation", "a.go"], .ok [("import \"example.com/app/domain/x\"".toList)]⟩]) := by
  decide

/-- C6 counterexample: a file whose read fails after its first line was
already consumed contributes that line's ImportRecord — not zero records:
`imports` is initialized before the `try` and the `except` clause falls
through to `return imports`, keeping everything accumulated before the
failure. -/
theorem c6_counterexample :
    (extract_imports "/proj/application/bad.go"
        (ReadResult.fail [("import \"example.com/app/domain/x\"".toList)] "invalid utf-8")).1 =
      [(1, "example.com/app/domain/x")] ∧
    (extract_imports "/proj/application/bad.go"
        (ReadResult.fail [("import \"example.com/app/domain/x\"".toList)] "invalid utf-8")).1 ≠
      [] := by
  exact ⟨by decide, by decide⟩

/-- C6 (amended): a read failure is reported as exactly one warning and the
run continues (every consumer is total); a failure before any line is read
(open/permission error) contributes zero ImportRecords, and in general a
failed read contributes exactly the records of the lines consumed before
the failure — the same records a successful read of just those lines would
produce. -/
theorem c6_read_failure (file_path : String) (preLines : List (List Char)) (msg : String) :
    (extract_imports file_path (.fail preLines msg)).1 =
      (extract_imports file_path (.ok preLines)).1 ∧
    (extract_imports file_path (.fail preLines msg)).2 =
      [WarnEvent.readFail file_path msg] ∧
    (extract_imports file_path (.fail [] msg)).1 = [] :=
  ⟨rfl, rfl, rfl⟩

/-- A word character is not Python whitespace. -/
theorem word_not_space (c : Char) (h : isWordChar c = true) : pyIsSpace c = false := by
  cases hs : pyIsSpace c
  · rfl
  · exfalso
    rw [pyIsSpace] at hs
    simp only [Bool.or_eq_true, decide_eq_true_eq] at hs
    rcases hs with ((((rfl | rfl) | rfl) | rfl) | rfl) | rfl <;> exact absurd h (by decide)

/-- A word character is not an opening parenthesis. -/
theorem word_ne_lparen (c : Char) (h : isWordChar c = true) : c ≠ '(' := by
  intro he; subst he; exact absurd h (by decide)

/-- A word character is not a double quote. -/
theorem word_ne_quote (c : Char) (h : isWordChar c = true) : c ≠ '\"' := by
  intro he; subst he; exact absurd h (by decide)

/-- `takeWhile` walks past a block of satisfying elements. -/
theorem takeWhile_append_all (p : Char → Bool) (xs ys : List Char)
    (h : ∀ c ∈ xs, p c = true) :
    (xs ++ ys).takeWhile p = xs ++ ys.takeWhile p := by
  induction xs with
  | nil => simp
  | cons a as ih =>
    have ha : p a = true := h a (List.mem_cons_self a as)
    simp only [List.cons_append, List.takeWhile_cons, ha, if_true]
    rw [ih (fun c hc => h c (List.mem_cons_of_mem a hc))]

/-- `dropWhile` drops a whole block of satisfying elements. -/
theorem dropWhile_append_all (p : Char → Bool) (xs ys : List Char)
    (h : ∀ c ∈ xs, p c = true) :
    (xs ++ ys).dropWhile p = ys.dropWhile p := by
  induction xs with
  | nil => simp
  | cons a as ih =>
    have ha : p a = true := h a (List.mem_cons_self a as)
    simp only [List.cons_append, List.dropWhile_cons, ha, if_true]
    exact ih (fun c hc => h c (List.mem_cons_of_mem a hc))

/-- A one-position disagreement refutes `startswith`. -/
theorem startsWithChars_eq_false (s pat : List Char) (i : Nat) (hi : i < pat.length)
    (hne : ∀ (hj : i < s.length), s[i] ≠ pat[i]) :
    startsWithChars s pat = false := by
  rw [startsWithChars, decide_eq_false_iff_not]
  intro h
  by_cases hj : i < s.length
  · have hit : i < (s.take pat.length).length := by
      rw [List.length_take]; exact lt_min hi hj
    have h1 : (s.take pat.length)[i] = s[i] := List.getElem_take s
    have h2 : (s.take pat.length)[i] = pat[i] := by
      simp only [h]
    exact hne hj (h1.symm.trans h2)
  · have hlen := congrArg List.length h
    rw [List.length_take] at hlen
    have hmin : pat.length ⊓ s.length ≤ s.length := Nat.min_le_right _ _
    omega

/-- Strings with a non-space head and a quote at the end are `strip`-fixed. -/
theorem pyStrip_eq_self (s : List Char) (h1 : s.dropWhile pyIsSpace = s)
    (h2 : ∃ Y, s = Y ++ ['\"']) : pyStrip s = s := by
  obtain ⟨Y, rfl⟩ := h2
  unfold pyStrip
  rw [h1]
  have h3 : (Y ++ ['\"']).reverse = '\"' :: Y.reverse := by simp
  rw [h3]
  have h4 : List.dropWhile pyIsSpace ('\"' :: Y.reverse) = '\"' :: Y.reverse := by
    rw [List.dropWhile_cons]
    simp [(by decide : pyIsSpace '\"' = false)]
  rw [h4]
  simp

/-- `quotedTail` rejects any string not starting with a quote. -/
theorem quotedTail_ne_head (c : Char) (rest : List Char) (h : c ≠ '\"') :
    quotedTail (c :: rest) = none := by
  simp only [quotedTail]
  rw [if_neg h]

/-- `quotedTail` accepts a nonempty quote-free capture followed by a quote
and trailing whitespace. -/
theorem quotedTail_spec (path trail : List Char)
    (hp : path ≠ [])
    (hq : ∀ c ∈ path, (c == '\"') = false)
    (ht : trail.all pyIsSpace = true) :
    quotedTail ('\"' :: (path ++ ('\"' :: trail))) = some path := by
  have h1 : (path ++ ('\"' :: trail)).takeWhile (fun x => !(x == '\"')) = path := by
    rw [takeWhile_append_all _ _ _ (fun c hc => by simp [hq c hc])]
    rw [List.takeWhile_cons]
    simp
  have h2 : (path ++ ('\"' :: trail)).dropWhile (fun x => !(x == '\"')) = '\"' :: trail := by
    rw [dropWhile_append_all _ _ _ (fun c hc => by simp [hq c hc])]
    rw [List.dropWhile_cons]
    simp
  simp only [quotedTail]
  rw [if_pos trivial]
  simp only [h1, h2]
  rw [if_pos trivial]
  rw [if_neg (by simp [List.isEmpty_iff, hp])]
  rw [if_pos ht]

/-- The head of a recognized block-import line is never whitespace. -/
theorem dropWhile_space_block (al : Option (List Char)) (path : List Char)
    (hal : aliasWordOK al = true) :
    (goBlockImportLine al path).dropWhile pyIsSpace = goBlockImportLine al path := by
  cases al with
  | none =>
    show List.dropWhile pyIsSpace ('\"' :: (path ++ ['\"'])) = '\"' :: (path ++ ['\"'])
    rw [List.dropWhile_cons]
    simp [(by decide : pyIsSpace '\"' = false)]
  | some a =>
    have hal' : (!a.isEmpty && a.all isWordChar) = true := hal
    obtain ⟨hne, hw⟩ := Bool.and_eq_true_iff.mp hal'
    cases a with
    | nil => simp at hne
    | cons c as =>
      have hcw : isWordChar c = true := (List.all_eq_true.mp hw) c (List.mem_cons_self c as)
      show List.dropWhile pyIsSpace ((c :: as) ++ (' ' :: '\"' :: (path ++ ['\"']))) =
          (c :: as) ++ (' ' :: '\"' :: (path ++ ['\"']))
      rw [List.cons_append, List.dropWhile_cons]
      simp [word_not_space c hcw]

/-- The shared alias-then-quoted-path regex suffix accepts every rendered
block-import line whose alias is absent or a word identifier and whose path
is nonempty and quote-free. -/
theorem matchAliasQuoted_block (al : Option (List Char)) (path : List Char)
    (hal : aliasWordOK al = true) (hp : pathOK path = true) :
    matchAliasQuoted (goBlockImportLine al path) = some path := by
  obtain ⟨hp1, hp2⟩ := Bool.and_eq_true_iff.mp hp
  have hpne : path ≠ [] := by
    intro he; subst he; simp at hp1
  have hpq : ∀ c ∈ path, (c == '\"') = false := by
    intro c hc
    have := (List.all_eq_true.mp hp2) c hc
    simpa using this
  have hq : quotedTail ('\"' :: (path ++ ('\"' :: []))) = some path :=
    quotedTail_spec path [] hpne hpq (by decide)
  cases al with
  | none =>
    show matchAliasQuoted ('\"' :: (path ++ ['\"'])) = some path
    unfold matchAliasQuoted
    simp only [hq]
  | some a =>
    have hal' : (!a.isEmpty && a.all isWordChar) = true := hal
    obtain ⟨hne, hw⟩ := Bool.and_eq_true_iff.mp hal'
    cases a with
    | nil => simp at hne
    | cons c as =>
      have hcw : isWordChar c = true := (List.all_eq_true.mp hw) c (List.mem_cons_self c as)
      have hallw : ∀ x ∈ c :: as, isWordChar x = true := List.all_eq_true.mp hw
      show matchAliasQuoted ((c :: as) ++ (' ' :: '\"' :: (path ++ ['\"']))) = some path
      have hqt : quotedTail ((c :: as) ++ (' ' :: '\"' :: (path ++ ['\"']))) = none := by
        rw [List.cons_append]
        exact quotedTail_ne_head c _ (word_ne_quote c hcw)
      have hwne : (((c :: as) ++ (' ' :: '\"' :: (path ++ ['\"']))).takeWhile
          isWordChar).isEmpty = false := by
        rw [takeWhile_append_all _ _ _ hallw]
        simp
      have hdw : ((c :: as) ++ (' ' :: '\"' :: (path ++ ['\"']))).dropWhile isWordChar =
          ' ' :: '\"' :: (path ++ ['\"']) := by
        rw [dropWhile_append_all _ _ _ hallw]
        rw [List.dropWhile_cons]
        simp [(by decide : isWordChar ' ' = false)]
      have hsp : ((' ' :: '\"' :: (path ++ ['\"'])).takeWhile pyIsSpace).isEmpty = false := by
        rw [List.takeWhile_cons]
        simp [(by decide : pyIsSpace ' ' = true)]
      have hds : (' ' :: '\"' :: (path ++ ['\"'])).dropWhile pyIsSpace =
          '\"' :: (path ++ ['\"']) := by
        rw [List.dropWhile_cons]
        simp only [(by decide : pyIsSpace ' ' = true), if_true]
        rw [List.dropWhile_cons]
        simp [(by decide : pyIsSpace '\"' = false)]
      unfold matchAliasQuoted
      simp only [hqt, hwne, Bool.false_eq_true, if_false, hdw, hsp, hds, hq]

/-- Every rendered block-import line ends in a quote. -/
theorem blockLine_ends_quote (al : Option (List Char)) (path : List Char) :
    ∃ Y, goBlockImportLine al path = Y ++ ['\"'] := by
  cases al with
  | none => exact ⟨'\"' :: path, by simp [goBlockImportLine]⟩
  | some a => exact ⟨a ++ (' ' :: '\"' :: path), by simp [goBlockImportLine]⟩

/-- A rendered block-import line is `strip`-fixed. -/
theorem pyStrip_block (al : Option (List Char)) (path : List Char)
    (hal : aliasWordOK al = true) :
    pyStrip (goBlockImportLine al path) = goBlockImportLine al path :=
  pyStrip_eq_self _ (dropWhile_space_block al path hal) (blockLine_ends_quote al path)

/-- A rendered single-line import declaration, spelled out. -/
theorem singleDecl_chars (al : Option (List Char)) (path : List Char) :
    goSingleImportDecl al path =
      'i' :: 'm' :: 'p' :: 'o' :: 'r' :: 't' :: ' ' :: goBlockImportLine al path := rfl

/-- A rendered single-line import declaration is `strip`-fixed. -/
theorem pyStrip_single (al : Option (List Char)) (path : List Char) :
    pyStrip (goSingleImportDecl al path) = goSingleImportDecl al path := by
  apply pyStrip_eq_self
  · rw [singleDecl_chars, List.dropWhile_cons]
    simp [(by decide : pyIsSpace 'i' = false)]
  · obtain ⟨Y, hY⟩ := blockLine_ends_quote al path
    exact ⟨'i' :: 'm' :: 'p' :: 'o' :: 'r' :: 't' :: ' ' :: Y, by
      rw [singleDecl_chars, hY]; simp⟩

/-- The single-line regex accepts every rendered single-line declaration
with a recognized alias and path. -/
theorem matchSingleImport_decl (al : Option (List Char)) (path : List Char)
    (hal : aliasWordOK al = true) (hp : pathOK path = true) :
    matchSingleImport (goSingleImportDecl al path) = some path := by
  rw [singleDecl_chars]
  simp only [matchSingleImport]
  have h1 : List.dropWhile pyIsSpace
      ('i' :: 'm' :: 'p' :: 'o' :: 'r' :: 't' :: ' ' :: goBlockImportLine al path) =
      'i' :: 'm' :: 'p' :: 'o' :: 'r' :: 't' :: ' ' :: goBlockImportLine al path := by
    rw [List.dropWhile_cons]
    simp [(by decide : pyIsSpace 'i' = false)]
  rw [h1]
  have h2 : (List.take 6
      ('i' :: 'm' :: 'p' :: 'o' :: 'r' :: 't' :: ' ' :: goBlockImportLine al path) ==
      ("import".toList)) = true := rfl
  rw [h2]
  simp only [if_true]
  have h3 : List.drop 6
      ('i' :: 'm' :: 'p' :: 'o' :: 'r' :: 't' :: ' ' :: goBlockImportLine al path) =
      ' ' :: goBlockImportLine al path := rfl
  rw [h3]
  have h4 : ((' ' :: goBlockImportLine al path).takeWhile pyIsSpace).isEmpty = false := by
    rw [List.takeWhile_cons]
    simp [(by decide : pyIsSpace ' ' = true)]
  have h5 : (' ' :: goBlockImportLine al path).dropWhile pyIsSpace =
      goBlockImportLine al path := by
    rw [List.dropWhile_cons]
    simp only [(by decide : pyIsSpace ' ' = true), if_true]
    exact dropWhile_space_block al path hal
  simp only [h4, Bool.false_eq_true, if_false, h5]
  exact matchAliasQuoted_block al path hal hp

/-- Processing one line that strips to an `import (` opener. -/
theorem extractLines_open (line : List Char) (rest : List (List Char)) (n : Nat) (b : Bool)
    (h : startsWithChars (pyStrip line) importOpenChars = true) :
    extractLines (line :: rest) n b = extractLines rest (n + 1) true := by
  simp only [extractLines, h, if_true]

/-- Processing one non-opener line outside a block. -/
theorem extractLines_single (line : List Char) (rest : List (List Char)) (n : Nat)
    (hopen : startsWithChars (pyStrip line) importOpenChars = false) :
    extractLines (line :: rest) n false =
      match matchSingleImport (pyStrip line) with
      | some p => (n, String.mk p) :: extractLines rest (n + 1) false
      | none => extractLines rest (n + 1) false := by
  simp only [extractLines, hopen, Bool.false_eq_true, if_false]

/-- Processing one closing line inside a block. -/
theorem extractLines_close (line : List Char) (rest : List (List Char)) (n : Nat)
    (_hopen : startsWithChars (pyStrip line) importOpenChars = false)
    (hrp : pyStrip line = [')']) :
    extractLines (line :: rest) n true = extractLines rest (n + 1) false := by
  simp only [extractLines, _hopen, Bool.false_eq_true, if_false, hrp, if_true]
  simp [(by decide : startsWithChars ([')']) importOpenChars = false)]

/-- Processing one non-closing line inside a block. -/
theorem extractLines_block (line : List Char) (rest : List (List Char)) (n : Nat)
    (hopen : startsWithChars (pyStrip line) importOpenChars = false)
    (hrp : pyStrip line ≠ [')']) :
    extractLines (line :: rest) n true =
      match matchImportLine (pyStrip line) with
      | some p => (n, String.mk p) :: extractLines rest (n + 1) true
      | none => extractLines rest (n + 1) true := by
  simp only [extractLines, hopen, Bool.false_eq_true, if_false, hrp]
  rw [if_pos trivial]

/-- A rendered block-import line is nonempty. -/
theorem blockLine_length_pos (al : Option (List Char)) (path : List Char) :
    0 < (goBlockImportLine al path).length := by
  cases al with
  | none => simp [goBlockImportLine]
  | some a => simp [goBlockImportLine]

/-- A rendered block-import line never starts with `import (`. -/
theorem blockLine_not_open (al : Option (List Char)) (path : List Char)
    (hal : aliasWordOK al = true) :
    startsWithChars (goBlockImportLine al path) importOpenChars = false := by
  cases al with
  | none =>
    apply startsWithChars_eq_false _ _ 0 (by decide)
    intro hj
    intro he
    have hbp : 0 < (goBlockImportLine none path).length := blockLine_length_pos none path
    have h0 : (goBlockImportLine none path)[0] = '\"' := rfl
    have hb0 : (0 : Nat) < importOpenChars.length := by decide
    have hp0 : importOpenChars[0] = 'i' := rfl
    rw [h0, hp0] at he
    exact absurd he (by decide)
  | some a =>
    have hal' : (!a.isEmpty && a.all isWordChar) = true := hal
    obtain ⟨hne0, hw⟩ := Bool.and_eq_true_iff.mp hal'
    have hwm : ∀ x ∈ a, isWordChar x = true := List.all_eq_true.mp hw
    have hpl : importOpenChars.length = 8 := rfl
    show startsWithChars (a ++ (' ' :: '\"' :: (path ++ ['\"']))) importOpenChars = false
    rcases lt_trichotomy a.length 6 with hL | hL | hL
    · apply startsWithChars_eq_false _ _ a.length (by omega)
      intro hj
      have h1 : (a ++ (' ' :: '\"' :: (path ++ ['\"'])))[a.length] = ' ' := by
        rw [List.getElem_append_right (le_refl a.length)]
        simp
      rw [h1]
      have hpat : ∀ i : Fin 8, i.val < 6 → importOpenChars.get i ≠ ' ' := by decide
      have h2 : importOpenChars[a.length] =
          importOpenChars.get ⟨a.length, by omega⟩ := by
        simp [List.get_eq_getElem]
      rw [h2]
      exact (hpat _ hL).symm
    · apply startsWithChars_eq_false _ _ 7 (by omega)
      intro hj
      have h1 : (a ++ (' ' :: '\"' :: (path ++ ['\"'])))[7] = '\"' := by
        rw [List.getElem_append_right (by omega)]
        simp [hL]
      rw [h1]
      intro he
      have hb7 : (7 : Nat) < importOpenChars.length := by decide
      have hp7 : importOpenChars[7] = '(' := rfl
      rw [hp7] at he
      exact absurd he (by decide)
    · apply startsWithChars_eq_false _ _ 6 (by omega)
      intro hj
      have h1 : (a ++ (' ' :: '\"' :: (path ++ ['\"'])))[6] = a[6] :=
        List.getElem_append_left hL
      rw [h1]
      intro he
      have hb6 : (6 : Nat) < importOpenChars.length := by decide
      have hp6 : importOpenChars[6] = ' ' := rfl
      rw [hp6] at he
      have hw6 : isWordChar a[6] = true := hwm _ (List.getElem_mem hL)
      rw [he] at hw6
      exact absurd hw6 (by decide)

/-- A rendered single-line import declaration never starts with `import (`
(the character after `import ` is a quote or a word character, never an
opening parenthesis). -/
theorem singleDecl_not_open (al : Option (List Char)) (path : List Char)
    (hal : aliasWordOK al = true) :
    startsWithChars (goSingleImportDecl al path) importOpenChars = false := by
  have hs : goSingleImportDecl al path =
      ("import ".toList) ++ goBlockImportLine al path := rfl
  have hbp : 0 < (goBlockImportLine al path).length := blockLine_length_pos al path
  rw [hs]
  apply startsWithChars_eq_false _ _ 7 (by decide)
  intro hj
  have h1 : (("import ".toList) ++ goBlockImportLine al path)[7] =
      (goBlockImportLine al path)[0] := by
    rw [List.getElem_append_right (by decide)]
    have h77 : 7 - ("import ".toList).length = 0 := rfl
    simp [h77]
  rw [h1]
  intro he
  have hb7 : (7 : Nat) < importOpenChars.length := by decide
  have hp7 : importOpenChars[7] = '(' := rfl
  rw [hp7] at he
  cases al with
  | none =>
    have h0 : (goBlockImportLine none path)[0] = '\"' := rfl
    rw [h0] at he
    exact absurd he (by decide)
  | some a =>
    have hal' : (!a.isEmpty && a.all isWordChar) = true := hal
    obtain ⟨hne0, hw⟩ := Bool.and_eq_true_iff.mp hal'
    cases a with
    | nil => simp at hne0
    | cons c as =>
      have hcw : isWordChar c = true :=
        (List.all_eq_true.mp hw) c (List.mem_cons_self c as)
      have h0 : (goBlockImportLine (some (c :: as)) path)[0] = c := rfl
      rw [h0] at he
      exact word_ne_lparen c hcw he

/-- A rendered block-import line never strips to the block-closing `)`. -/
theorem blockLine_ne_rparen (al : Option (List Char)) (path : List Char)
    (hal : aliasWordOK al = true) :
    goBlockImportLine al path ≠ [')'] := by
  cases al with
  | none =>
    intro h
    injection h with h1 _
    exact absurd h1 (by decide)
  | some a =>
    have hal' : (!a.isEmpty && a.all isWordChar) = true := hal
    obtain ⟨hne0, _⟩ := Bool.and_eq_true_iff.mp hal'
    cases a with
    | nil => simp at hne0
    | cons c as =>
      intro h
      have h' : c :: (as ++ (' ' :: '\"' :: (path ++ ['\"']))) = [')'] := h
      injection h' with _ h2
      simp at h2

/-- The block-line regex accepts the rendered block line. -/
theorem matchImportLine_block (al : Option (List Char)) (path : List Char)
    (hal : aliasWordOK al = true) (hp : pathOK path = true) :
    matchImportLine (goBlockImportLine al path) = some path := by
  unfold matchImportLine
  rw [dropWhile_space_block al path hal]
  exact matchAliasQuoted_block al path hal hp

/-- C9 counterexample: `import . "example.com/app/domain/x"` is an import
declaration the Go grammar permits (a dot-import), but the extractor yields
no ImportRecord for it — the alias pattern `\w+` does not match `.`, so the
claimed record `(1, path)` is never produced. One-line parenthesized blocks
and backquoted (raw-string) paths are likewise unrecognized. -/
theorem c9_counterexample :
    goGrammarAliasOK (some ['.']) = true ∧
    pathOK ("example.com/app/domain/x".toList) = true ∧
    (extract_imports "/proj/presentation/h.go"
        (.ok [goSingleImportDecl (some ['.']) ("example.com/app/domain/x".toList)])).1 =
      [] :=
  ⟨by decide, by decide, by decide⟩

/-- C9 (amended): the extractor yields an ImportRecord carrying the line
number and quoted path exactly for the lexical forms its regexes cover: a
single-line declaration whose optional alias is a word-character identifier
(not `.`), and such a line inside a block delimited by an `import (` opener
line and a `)` closer line. -/
theorem c9_recognized_forms (file_path : String) (al : Option (List Char))
    (path : List Char) (hal : aliasWordOK al = true) (hp : pathOK path = true) :
    (extract_imports file_path (.ok [goSingleImportDecl al path])).1 =
      [(1, String.mk path)] ∧
    (extract_imports file_path
        (.ok [importOpenChars, goBlockImportLine al path, [')']])).1 =
      [(2, String.mk path)] := by
  have hstrip_b := pyStrip_block al path hal
  have hstrip_s := pyStrip_single al path
  have hopen_s : startsWithChars (pyStrip (goSingleImportDecl al path))
      importOpenChars = false := by
    rw [hstrip_s]; exact singleDecl_not_open al path hal
  have hopen_b : startsWithChars (pyStrip (goBlockImportLine al path))
      importOpenChars = false := by
    rw [hstrip_b]; exact blockLine_not_open al path hal
  constructor
  · show extractLines [goSingleImportDecl al path] 1 false = [(1, String.mk path)]
    rw [extractLines_single _ _ _ hopen_s, hstrip_s,
      matchSingleImport_decl al path hal hp]
    rfl
  · show extractLines [importOpenChars, goBlockImportLine al path, [')']] 1 false =
      [(2, String.mk path)]
    rw [extractLines_open _ _ _ _ (by decide)]
    rw [extractLines_block _ _ _ hopen_b
      (by rw [hstrip_b]; exact blockLine_ne_rparen al path hal)]
    rw [hstrip_b, matchImportLine_block al path hal hp]
    rfl

/-- C9 witness: an aliased single-line import and an aliased block line. -/
theorem c9_recognized_forms_witness :
    (extract_imports "/proj/application/uc.go"
        (.ok [goSingleImportDecl (some ("apperr".toList))
          ("example.com/app/application/error".toList)])).1 =
      [(1, String.mk ("example.com/app/application/error".toList))] ∧
    (extract_imports "/proj/application/uc.go"
        (.ok [importOpenChars,
          goBlockImportLine (some ("apperr".toList))
            ("example.com/app/application/error".toList), [')']])).1 =
      [(2, String.mk ("example.com/app/application/error".toList))] :=
  c9_recognized_forms "/proj/application/uc.go" (some ("apperr".toList))
    ("example.com/app/application/error".toList) (by decide) (by decide)

end ArchGuard
